import Mathlib

/-!
Verification of the `reporter` backend (Python), shallowly embedded in Lean.

The embedding covers:
* `services/data_source_registry.py` — the `DataSourceRegistry` class.
  Each public coroutine performs load → mutate → save under a lock; since the
  backing JSON file and the in-memory cache stay in sync in the sequential
  semantics, every operation is modelled as a pure state transformer on the
  registry document `{sources, schemas, feature_mappings, last_updated}` —
  except `cleanup_inactive_sources`, which re-acquires the already-held
  non-reentrant `asyncio.Lock` and therefore deadlocks whenever it has
  anything to remove; its result type is an `Option`, with `none` for the
  never-returning call.
  JSON dictionaries are modelled as association lists in insertion order
  (Python dicts preserve insertion order); `dict[k] = v` is `setKey`,
  `del dict[k]` is `eraseKey`, `dict.get(k)` is `lookupKey`.
  ISO-8601 timestamp strings are abstracted to integers; a stored
  `last_accessed` value is `Option (Option Int)`: `none` models a missing (or
  empty, hence falsy) field, `some none` a present string that
  `datetime.fromisoformat` rejects, and `some (some t)` a string parsing to
  time `t`.  `datetime.now()` is passed in explicitly as the `now` argument.
* `services/files.py` — `_create_automatic_semantic_model` and
  `process_and_integrate_file` of `EnhancedFileService`.
* `services/file_processor.py` — `create_semantic_model` and the control flow
  of `process_file`.
* `services/query_engine.py` — `_modify_sql_for_execution` and
  `_execute_sql_on_data`.
-/

namespace Reporter

/-! ### Association lists (Python `dict` in insertion order) -/

/-- `d[k] = v`: replace the binding of `k` in place, or append it. -/
def setKey (k : String) (v : α) : List (String × α) → List (String × α)
  | [] => [(k, v)]
  | (k', v') :: rest => if k' = k then (k, v) :: rest else (k', v') :: setKey k v rest

/-- `del d[k]`: drop the binding of `k` (keys are unique in a Python dict). -/
def eraseKey (k : String) : List (String × α) → List (String × α)
  | [] => []
  | (k', v') :: rest => if k' = k then rest else (k', v') :: eraseKey k rest

/-- `d.get(k)`. -/
def lookupKey (k : String) : List (String × α) → Option α
  | [] => none
  | (k', v') :: rest => if k' = k then some v' else lookupKey k rest

/-- `k in d`. -/
def hasKey (k : String) (l : List (String × α)) : Bool :=
  (lookupKey k l).isSome

/-- `d.update(u)`: apply each binding of `u` to `d` in order. -/
def dictUpdate (d u : List (String × α)) : List (String × α) :=
  u.foldl (fun acc kv => setKey kv.1 kv.2 acc) d

/-! ### Data model of `services/data_source_registry.py` -/

/-- A JSON scalar as stored in a per-feature sync dictionary. -/
inductive JVal where
  | null
  | bool (b : Bool)
  | time (t : Int)
  | str (s : String)
  deriving DecidableEq, Repr

/-- The caller-supplied `source_info` dictionary (its content is opaque to the
registry, which only spreads it into the stored record). -/
abbrev SourceInfo := List (String × String)

/-- One per-feature entry of `feature_mappings[id]`, e.g.
`{"enabled": true, "last_sync": null}`. -/
abbrev FeatureState := List (String × JVal)

/-- The record stored at `registry_cache["sources"][id]`:
`{**source_info, "registered_at": ..., "last_accessed": ..., "access_count": 0}`.
`last_accessed` is `none` when the field is missing (or empty, hence falsy),
`some none` when present but not parsable by `datetime.fromisoformat`, and
`some (some t)` when it parses to time `t`. -/
structure StoredSource where
  info : SourceInfo
  registered_at : Int
  last_accessed : Option (Option Int)
  access_count : Nat
  deriving DecidableEq, Repr

/-- The registry document
`{"sources": ..., "schemas": ..., "feature_mappings": ..., "last_updated": ...}`.
Schema payloads are opaque strings. -/
structure Registry where
  sources : List (String × StoredSource)
  schemas : List (String × String)
  feature_mappings : List (String × List (String × FeatureState))
  last_updated : Int
  deriving DecidableEq, Repr

/-- The fresh document built by `_load_registry` when no file exists. -/
def emptyRegistry : Registry :=
  { sources := [], schemas := [], feature_mappings := [], last_updated := 0 }

/-- The initial `feature_mappings[source_id]` value written by `register_source`. -/
def initialFeatureMappings : List (String × FeatureState) :=
  [ ("conversational_ai", [("enabled", JVal.bool true), ("last_sync", JVal.null)])
  , ("query_builder", [("enabled", JVal.bool true), ("last_sync", JVal.null)])
  , ("dashboard_builder", [("enabled", JVal.bool true), ("last_sync", JVal.null)])
  , ("ai_assistant", [("enabled", JVal.bool true), ("last_sync", JVal.null)]) ]

/-- `DataSourceRegistry.register_source`: store
`{**source_info, registered_at, last_accessed, access_count: 0}` under the id;
initialize `feature_mappings[id]` only when the id has no entry yet; save
(stamping `last_updated`). -/
def registerSource (s : Registry) (source_id : String) (info : SourceInfo) (now : Int) : Registry :=
  { s with
    sources := setKey source_id
      { info := info
        registered_at := now
        last_accessed := some (some now)
        access_count := 0 } s.sources
    feature_mappings :=
      if hasKey source_id s.feature_mappings then s.feature_mappings
      else setKey source_id initialFeatureMappings s.feature_mappings
    last_updated := now }

/-- `DataSourceRegistry.unregister_source`: delete the id from `sources`,
`schemas` and `feature_mappings` (each guarded by membership, which `eraseKey`
subsumes); save. -/
def unregisterSource (s : Registry) (source_id : String) (now : Int) : Registry :=
  { s with
    sources := eraseKey source_id s.sources
    schemas := eraseKey source_id s.schemas
    feature_mappings := eraseKey source_id s.feature_mappings
    last_updated := now }

/-- `DataSourceRegistry.get_source_info`: `registry_cache["sources"].get(source_id)`. -/
def getSourceInfo (s : Registry) (source_id : String) : Option StoredSource :=
  lookupKey source_id s.sources

/-- `DataSourceRegistry.update_feature_sync`: ensure `feature_mappings[id]` and
`feature_mappings[id][feature]` exist (as `{}` when missing), then
`.update({**sync_info, "last_sync": now})`; save. -/
def updateFeatureSync (s : Registry) (source_id feature_name : String)
    (sync_info : List (String × JVal)) (now : Int) : Registry :=
  let m0 := match lookupKey source_id s.feature_mappings with
    | some m => m
    | none => []
  let fs0 := match lookupKey feature_name m0 with
    | some fs => fs
    | none => []
  let fs1 := dictUpdate fs0 (sync_info ++ [("last_sync", JVal.time now)])
  { s with
    feature_mappings := setKey source_id (setKey feature_name fs1 m0) s.feature_mappings
    last_updated := now }

/-- `DataSourceRegistry.track_access`: when the id is a known source, stamp
`last_accessed`, increment `access_count` and save; otherwise do nothing at
all (no save either). -/
def trackAccess (s : Registry) (source_id : String) (now : Int) : Registry :=
  match lookupKey source_id s.sources with
  | some src =>
      { s with
        sources := setKey source_id
          { src with last_accessed := some (some now), access_count := src.access_count + 1 }
          s.sources
        last_updated := now }
  | none => s

/-- The removal condition of `cleanup_inactive_sources`: a source is collected
when `last_accessed` is present (truthy) and parses to a time older than
`now - days_threshold`, or is present and unparsable (`except ValueError`).
A missing `last_accessed` is skipped by `if last_accessed_str:`. -/
def shouldRemove (now : Int) (days_threshold : Int) (src : StoredSource) : Bool :=
  match src.last_accessed with
  | none => false
  | some none => true
  | some (some t) => decide (t < now - days_threshold)

/-- `await self.unregister_source(source_id)` as performed by a task that may
already hold `self._lock`.  `asyncio.Lock` is not reentrant: acquiring it
while the same task already holds it blocks forever, so the call never
completes — modelled by `none`.  With the lock free the call completes and
behaves as `unregisterSource`. -/
def unregisterSourceLocked (lock_held : Bool) (s : Registry) (source_id : String)
    (now : Int) : Option Registry :=
  if lock_held then none else some (unregisterSource s source_id now)

/-- `DataSourceRegistry.cleanup_inactive_sources`: under `async with
self._lock`, collect the ids to remove, `await self.unregister_source(...)`
for each — while still holding the lock, so the first such await deadlocks —
and return their number.  `none` is the deadlocked (never-returning) call:
the method completes only when nothing qualifies for removal. -/
def cleanupInactiveSources (s : Registry) (now : Int) (days_threshold : Int) :
    Option (Registry × Nat) :=
  let sources_to_remove :=
    (s.sources.filter (fun p => shouldRemove now days_threshold p.2)).map Prod.fst
  (sources_to_remove.foldl
      (fun acc source_id => acc.bind
        (fun st => unregisterSourceLocked true st source_id now))
      (some s)).map
    (fun st => (st, sources_to_remove.length))

/-- `register_source` record-scrubbing: forget the timestamp fields
(`registered_at`, `last_accessed`) of a stored source. -/
def scrubSource (r : StoredSource) : StoredSource :=
  { r with registered_at := 0, last_accessed := none }

/-- Forget every timestamp field of a registry state (`registered_at` and
`last_accessed` of each source, and the document's `last_updated`). -/
def scrubRegistry (s : Registry) : Registry :=
  { s with
    sources := s.sources.map (fun p => (p.1, scrubSource p.2))
    last_updated := 0 }

/-- The four known features have an entry in a `feature_mappings[id]` value. -/
def allFeaturesPresent (m : List (String × FeatureState)) : Bool :=
  hasKey "conversational_ai" m && hasKey "query_builder" m &&
    hasKey "dashboard_builder" m && hasKey "ai_assistant" m

/-- Every id in `feature_mappings` carries entries for all four known features. -/
def FullMaps (s : Registry) : Prop :=
  ∀ p ∈ s.feature_mappings, allFeaturesPresent p.2 = true

instance (s : Registry) : Decidable (FullMaps s) := by
  unfold FullMaps
  infer_instance

/-! ### Semantic-model generation

Two generators exist in the source:
`EnhancedFileService._create_automatic_semantic_model` (`services/files.py`)
and `FileProcessorService.create_semantic_model`
(`services/file_processor.py`).  Both walk `extracted_data["columns"]`, a list
of `{name, type}` dictionaries, and build `schema_definition["metrics"]` and
`schema_definition["dimensions"]`. -/

/-- One entry of `extracted_data["columns"]`. -/
structure Column where
  name : String
  ctype : String
  deriving DecidableEq, Repr

/-- One entry of `schema_definition["metrics"]`.  `original_column` is `none`
for metrics that carry no such key in the Python dictionary. -/
structure Metric where
  name : String
  title : String
  mtype : String
  sql : String
  format : String
  original_column : Option String
  deriving DecidableEq, Repr

/-- One entry of `schema_definition["dimensions"]`. -/
structure Dimension where
  name : String
  title : String
  sql : String
  dtype : String
  original_column : Option String
  deriving DecidableEq, Repr

/-- ASCII fragment of Python's `str.lower` (column headers are ASCII). -/
def asciiLower (c : Char) : Char :=
  if 'A' ≤ c ∧ c ≤ 'Z' then Char.ofNat (c.toNat + 32) else c

/-- `col_name.lower().replace(" ", "_").replace("-", "_")`
(`services/files.py`).  Both replacements are single-character, so the
composition is a character map. -/
def normNameFiles (s : String) : String :=
  String.mk (s.data.map (fun c =>
    let c := asciiLower c
    if c = ' ' then '_' else if c = '-' then '_' else c))

/-- `col_name.lower().replace(" ", "_")` (`services/file_processor.py`). -/
def normNameFP (s : String) : String :=
  String.mk (s.data.map (fun c =>
    let c := asciiLower c
    if c = ' ' then '_' else c))

/-- `col_type in ["number", "integer", "float"]` (`services/files.py`). -/
def isNumericFiles (c : Column) : Bool :=
  c.ctype = "number" || c.ctype = "integer" || c.ctype = "float"

/-- The sum metric of `_create_automatic_semantic_model`. -/
def sumMetricFiles (n : String) : Metric :=
  { name := "sum_" ++ normNameFiles n
    title := "Total " ++ n
    mtype := "sum"
    sql := "SUM(main_table.`" ++ n ++ "`)"
    format := "number"
    original_column := some n }

/-- The average metric of `_create_automatic_semantic_model`. -/
def avgMetricFiles (n : String) : Metric :=
  { name := "avg_" ++ normNameFiles n
    title := "Average " ++ n
    mtype := "average"
    sql := "AVG(main_table.`" ++ n ++ "`)"
    format := "number"
    original_column := some n }

/-- The count metric of `_create_automatic_semantic_model`. -/
def countMetricFiles (n : String) : Metric :=
  { name := "count_" ++ normNameFiles n
    title := "Count of " ++ n
    mtype := "count"
    sql := "COUNT(main_table.`" ++ n ++ "`)"
    format := "number"
    original_column := some n }

/-- The unconditional `row_count` metric appended after the column loop of
`_create_automatic_semantic_model`. -/
def rowCountMetric : Metric :=
  { name := "row_count"
    title := "Total Rows"
    mtype := "count"
    sql := "COUNT(*)"
    format := "number"
    original_column := none }

/-- The dimension `_create_automatic_semantic_model` appends for every column. -/
def dimensionFiles (c : Column) : Dimension :=
  { name := normNameFiles c.name
    title := c.name
    sql := "main_table.`" ++ c.name ++ "`"
    dtype := c.ctype
    original_column := some c.name }

/-- `schema_definition["metrics"]` as built by
`_create_automatic_semantic_model`: per numeric column a sum, an average and
a count metric, then one `row_count` metric. -/
def filesMetrics (cols : List Column) : List Metric :=
  (cols.flatMap (fun c =>
    if isNumericFiles c then
      [sumMetricFiles c.name, avgMetricFiles c.name, countMetricFiles c.name]
    else [])) ++ [rowCountMetric]

/-- `schema_definition["dimensions"]` as built by
`_create_automatic_semantic_model`: one dimension per column, any type. -/
def filesDimensions (cols : List Column) : List Dimension :=
  cols.map dimensionFiles

/-- The sum metric of `FileProcessorService.create_semantic_model` (the only
metric it emits; no `original_column` key, unquoted column in the SQL). -/
def sumMetricFP (n : String) : Metric :=
  { name := "sum_" ++ normNameFP n
    title := "Total " ++ n
    mtype := "sum"
    sql := "SUM(main_table." ++ n ++ ")"
    format := "number"
    original_column := none }

/-- The dimension of `FileProcessorService.create_semantic_model`. -/
def dimensionFP (c : Column) : Dimension :=
  { name := normNameFP c.name
    title := c.name
    sql := "main_table." ++ c.name
    dtype := c.ctype
    original_column := none }

/-- `schema_definition["metrics"]` as built by
`FileProcessorService.create_semantic_model`: only a sum metric per numeric
column, and no `row_count` metric at all. -/
def fpMetrics (cols : List Column) : List Metric :=
  cols.flatMap (fun c =>
    if c.ctype = "string" || c.ctype = "boolean" then []
    else if c.ctype = "number" || c.ctype = "integer" then [sumMetricFP c.name]
    else [])

/-- `schema_definition["dimensions"]` as built by
`FileProcessorService.create_semantic_model`: string/boolean and
number/integer columns yield a dimension; any other type (e.g. `datetime`)
yields none. -/
def fpDimensions (cols : List Column) : List Dimension :=
  cols.flatMap (fun c =>
    if c.ctype = "string" || c.ctype = "boolean" then [dimensionFP c]
    else if c.ctype = "number" || c.ctype = "integer" then [dimensionFP c]
    else [])

/-! ### Query execution engine (`services/query_engine.py`) -/

/-- `pat` is a prefix of the second list. -/
def isPrefixL : List Char → List Char → Bool
  | [], _ => true
  | _ :: _, [] => false
  | p :: ps, c :: cs => (p = c) && isPrefixL ps cs

/-- Python `str.replace` for a nonempty pattern: scan left to right and
replace non-overlapping occurrences.  `fuel` bounds the recursion; each step
consumes at least one character of the text, so `fuel = length of the text`
computes the full scan. -/
def replChars (pat rep : List Char) : Nat → List Char → List Char
  | _, [] => []
  | 0, s => s
  | fuel + 1, c :: rest =>
      if isPrefixL pat (c :: rest) then
        rep ++ replChars pat rep fuel (List.drop pat.length (c :: rest))
      else
        c :: replChars pat rep fuel rest

/-- Python `s.replace(old, new)` (all the patterns used by the query engine
are nonempty literals). -/
def pyReplace (s pat rep : String) : String :=
  String.mk (replChars pat.data rep.data s.data.length s.data)

/-- `pat` occurs as a contiguous substring of the text. -/
def hasSubL (pat : List Char) : List Char → Bool
  | [] => isPrefixL pat []
  | c :: cs => isPrefixL pat (c :: cs) || hasSubL pat cs

/-- The `replacements` table of `QueryEngine._modify_sql_for_execution`. -/
def tableReplacements : List (String × String) :=
  [ ("orders", "data"), ("customers", "data"), ("sales", "data")
  , ("products", "data"), ("uploaded_data", "data"), ("main_table", "data") ]

/-- `QueryEngine._modify_sql_for_execution`: apply the replacements in order
to the caller's SQL string. -/
def modifySqlForExecution (sql : String) : String :=
  tableReplacements.foldl (fun acc pr => pyReplace acc pr.1 pr.2) sql

/-- None of the six replaced table names occurs in the SQL text. -/
def noTableNameOccurs (sql : String) : Bool :=
  tableReplacements.all (fun pr => !(hasSubL pr.1.data sql.data))

/-- A row of `extracted_data["rows"]` (opaque payload). -/
abbrev Row := List (String × String)

/-- The `data_source` argument of `_execute_sql_on_data`: the stored
`extracted_data` of an uploaded file. -/
structure QEDataSource where
  dtype : String
  rows : List Row
  deriving DecidableEq, Repr

/-- `QueryEngine._execute_sql_on_data`: reject non-tabular data, reject empty
row lists, otherwise load the rows into a relational table created fresh for
this one call (an in-memory `sqlite3` database opened and closed inside the
function — modelled by applying the pure engine `runSql` to exactly this
call's rows) and execute the rewritten — not the caller's verbatim — SQL. -/
def executeSqlOnData (runSql : String → List Row → ρ) (sql : String)
    (ds : QEDataSource) : Except String ρ :=
  if ds.dtype ≠ "tabular" then Except.error "Can only query tabular data"
  else if ds.rows.isEmpty then Except.error "No data available to query"
  else Except.ok (runSql (modifySqlForExecution sql) ds.rows)

/-! ### Ingestion pipeline
(`EnhancedFileService.process_and_integrate_file` in `services/files.py`,
`FileProcessorService.process_file` in `services/file_processor.py`) -/

/-- The value `process_file` would store as `extracted_data`; only its type
tag steers the control flow modelled here. -/
structure ExtractedData where
  dtype : String
  deriving DecidableEq, Repr

/-- Outcome of the format-specific parser invoked by `process_file`:
it either returns a payload or raises. -/
inductive ParseOutcome where
  | ok (d : ExtractedData)
  | throws (err : String)
  deriving DecidableEq, Repr

/-- The `UploadedFile` row as far as the pipeline touches it:
`processing_status`, the `error` entry of the stored metadata, and
`extracted_data`. -/
structure FileRec where
  processing_status : String
  meta_error : Option String
  extracted_data : Option ExtractedData
  deriving DecidableEq, Repr

/-- `FileProcessorService.process_file`: set status `processing` (metadata
without an error entry), fail on an unsupported type or a parser exception
(recording the error), otherwise store the payload and set `completed`.
The coroutine has no `return extracted_data` statement on any path, so its
value is always `None` — modelled by the second component. -/
def processFile (supported : Bool) (outcome : ParseOutcome) (r : FileRec) :
    FileRec × Option ExtractedData :=
  let r1 := { r with processing_status := "processing", meta_error := none }
  if !supported then
    ({ r1 with processing_status := "failed", meta_error := some "Unsupported file type" }, none)
  else
    match outcome with
    | ParseOutcome.throws m =>
        ({ r1 with processing_status := "failed", meta_error := some m }, none)
    | ParseOutcome.ok d =>
        ({ r1 with
            processing_status := "completed"
            extracted_data := some d
            meta_error := none }, none)

/-- `EnhancedFileService.process_and_integrate_file`: run `process_file`,
then (step 2) test `extracted_data.get("type")`.  Since `process_file`
returns `None`, this attribute access raises, the pipeline's `except` branch
records the failure, and no notification is ever sent.  The unreachable
branch for a non-`None` payload is modelled too: the automatic semantic
model is attempted only for tabular data (its failures are swallowed,
yielding `None`), and steps 4–6 notify `query_builder` (only when a model
exists for tabular data), `conversational_ai` and `dashboard_builder`.
The second component lists the features notified. -/
def processAndIntegrateFile (supported : Bool) (outcome : ParseOutcome)
    (modelCreated : Bool) (r : FileRec) : FileRec × List String :=
  let res := processFile supported outcome r
  match res.2 with
  | none =>
      ({ res.1 with
          processing_status := "failed"
          meta_error := some "AttributeError: NoneType object has no attribute get" }, [])
  | some d =>
      let hasModel := d.dtype = "tabular" && modelCreated
      (res.1,
       (if hasModel then ["query_builder"] else []) ++
         ["conversational_ai", "dashboard_builder"])

/-! ### Stuck-work recovery -/

/-- An uploaded-file record as seen by the maintenance pass: its id, its
`processing_status`, and the `started_at` timestamp that
`FileProcessorService.process_file` stores in the metadata when it claims
the file. -/
structure ProcFile where
  id : String
  status : String
  started_at : Int
  deriving DecidableEq, Repr

/-- A file is stuck: in `processing` longer than the threshold, measured from
the stored start timestamp. -/
def isStuck (now threshold : Int) (f : ProcFile) : Bool :=
  f.status = "processing" && decide (now - f.started_at > threshold)

/-- Modelled from the spec: the stuck-work maintenance pass of §4.5
("an external maintenance action scans sources stuck in `processing` beyond a
fixed threshold (measured from the stored start timestamp) and
force-transitions them back to `pending`, re-enqueuing the same work").
No such pass exists under `src/`; only the start-timestamp recording
(`start_metadata = {"started_at": time.time()}` in
`FileProcessorService.process_file`) is present.  The first component is the
updated record list; the second lists the ids whose processing was
re-enqueued. -/
def resetStuckSources (now threshold : Int) (files : List ProcFile) :
    List ProcFile × List String :=
  (files.map (fun f => if isStuck now threshold f then { f with status := "pending" } else f),
   (files.filter (isStuck now threshold)).map ProcFile.id)

/-! ### Concrete states used by the witnesses and counterexamples -/

/-- A registry holding one fully registered source `"a"`. -/
def regA : Registry :=
  { sources := [("a",
      { info := [("name", "x")]
        registered_at := 1
        last_accessed := some (some 1)
        access_count := 3 })]
    schemas := [("a", "schema-a")]
    feature_mappings := [("a", initialFeatureMappings)]
    last_updated := 1 }

/-- A registry with one stale source, one unparsable timestamp and one fresh
source. -/
def regCleanup : Registry :=
  { sources :=
      [ ("stale",
          { info := []
            registered_at := 0
            last_accessed := some (some 0)
            access_count := 0 })
      , ("garbled",
          { info := []
            registered_at := 0
            last_accessed := some none
            access_count := 0 })
      , ("fresh",
          { info := []
            registered_at := 90
            last_accessed := some (some 90)
            access_count := 2 }) ]
    schemas := []
    feature_mappings := []
    last_updated := 0 }

/-- The state reached from the empty registry by an `update_feature_sync` on
the unknown id `"x"` followed by a `register_source` of `"x"`. -/
def c5Reached : Registry :=
  registerSource (updateFeatureSync emptyRegistry "x" "conversational_ai" [] 0) "x" [] 1

/-- A registry whose only source has no `last_accessed` field at all. -/
def regMissingAccess : Registry :=
  { sources := [("a",
      { info := []
        registered_at := 0
        last_accessed := none
        access_count := 0 })]
    schemas := []
    feature_mappings := []
    last_updated := 0 }

/-! ### Library lemmas about the dictionary model -/

theorem lookupKey_setKey (k k' : String) (v : α) (l : List (String × α)) :
    lookupKey k' (setKey k v l) = if k = k' then some v else lookupKey k' l := by
  induction l with
  | nil =>
    by_cases h : k = k' <;> simp [setKey, lookupKey, h]
  | cons p rest ih =>
    obtain ⟨k₀, v₀⟩ := p
    by_cases h0 : k₀ = k
    · by_cases h1 : k = k' <;> simp [setKey, lookupKey, h0, h1]
    · by_cases h1 : k₀ = k'
      · subst h1
        have : ¬ k = k₀ := fun h => h0 h.symm
        simp [setKey, lookupKey, h0, this]
      · simp [setKey, lookupKey, h0, h1, ih]

theorem hasKey_setKey_self (k : String) (v : α) (l : List (String × α)) :
    hasKey k (setKey k v l) = true := by
  simp [hasKey, lookupKey_setKey]

theorem setKey_setKey_same (k : String) (v₁ v₂ : α) (l : List (String × α)) :
    setKey k v₂ (setKey k v₁ l) = setKey k v₂ l := by
  induction l with
  | nil => simp [setKey]
  | cons p rest ih =>
    obtain ⟨k₀, v₀⟩ := p
    by_cases h : k₀ = k <;> simp [setKey, h, ih]

theorem mem_setKey (k : String) (v : α) (l : List (String × α)) :
    ∀ p ∈ setKey k v l, p = (k, v) ∨ p ∈ l := by
  induction l with
  | nil => simp [setKey]
  | cons q rest ih =>
    obtain ⟨k₀, v₀⟩ := q
    intro p hp
    by_cases h : k₀ = k
    · subst h
      simp [setKey] at hp
      rcases hp with hp | hp
      · exact Or.inl hp
      · exact Or.inr (List.mem_cons_of_mem _ hp)
    · simp [setKey, h] at hp
      rcases hp with hp | hp
      · exact Or.inr (by simp [hp])
      · rcases ih p hp with h' | h'
        · exact Or.inl h'
        · exact Or.inr (List.mem_cons_of_mem _ h')

theorem lookupKey_mem {k : String} {v : α} {l : List (String × α)}
    (h : lookupKey k l = some v) : (k, v) ∈ l := by
  induction l with
  | nil => simp [lookupKey] at h
  | cons q rest ih =>
    obtain ⟨k₀, v₀⟩ := q
    by_cases h0 : k₀ = k
    · subst h0
      simp [lookupKey] at h
      simp [h]
    · simp only [lookupKey, if_neg h0] at h
      exact List.mem_cons_of_mem _ (ih h)

theorem eraseKey_sublist (k : String) (l : List (String × α)) :
    (eraseKey k l).Sublist l := by
  induction l with
  | nil => simp [eraseKey]
  | cons q rest ih =>
    obtain ⟨k₀, v₀⟩ := q
    by_cases h : k₀ = k
    · simp only [eraseKey, if_pos h]
      exact (List.sublist_cons_self _ _)
    · simp only [eraseKey, if_neg h]
      exact List.Sublist.cons₂ _ ih

theorem hasKey_setKey (a k : String) (v : α) (l : List (String × α)) :
    hasKey a (setKey k v l) = (decide (k = a) || hasKey a l) := by
  by_cases h : k = a <;> simp [hasKey, lookupKey_setKey, h]

theorem map_snd_setKey (f : α → β) (k : String) (v : α) (l : List (String × α)) :
    (setKey k v l).map (fun p => (p.1, f p.2))
      = setKey k (f v) (l.map (fun p => (p.1, f p.2))) := by
  induction l with
  | nil => simp [setKey]
  | cons q rest ih =>
    obtain ⟨k₀, v₀⟩ := q
    by_cases h : k₀ = k <;> simp [setKey, h, ih]

theorem Registry.ext_fields {a b : Registry}
    (h1 : a.sources = b.sources) (h2 : a.schemas = b.schemas)
    (h3 : a.feature_mappings = b.feature_mappings)
    (h4 : a.last_updated = b.last_updated) : a = b := by
  cases a
  cases b
  simp_all

/-! ### Registry claims -/

/-- C3 counterexample.  The claim states that `get`, `update_feature_sync`
and `track_access` on an unknown id signal `NotFound` to the caller.  On the
code, at the unknown id `"x"` of the empty registry: `get_source_info`
returns the default `None`, `track_access` silently leaves the state
untouched, and `update_feature_sync` creates fresh state for the id — none of
the three raises. -/
theorem C3_counterexample :
    getSourceInfo emptyRegistry "x" = none
    ∧ trackAccess emptyRegistry "x" 7 = emptyRegistry
    ∧ (updateFeatureSync emptyRegistry "x" "conversational_ai" [] 7).feature_mappings
        = [("x", [("conversational_ai", [("last_sync", JVal.time 7)])])] := by
  refine ⟨rfl, rfl, rfl⟩

/-- C3 (amended): for every id absent from `sources`, `get_source_info`
returns `None` (a default), `track_access` is a complete no-op (it does not
even save), and `update_feature_sync` creates a `feature_mappings` entry for
the unknown id; no operation signals `NotFound`. -/
theorem C3_amended (s : Registry) (id f : String) (sync_info : List (String × JVal)) (now : Int)
    (h : lookupKey id s.sources = none) :
    getSourceInfo s id = none
    ∧ trackAccess s id now = s
    ∧ hasKey id (updateFeatureSync s id f sync_info now).feature_mappings = true := by
  refine ⟨h, ?_, ?_⟩
  · simp [trackAccess, h]
  · simp [updateFeatureSync, hasKey_setKey_self]

/-- C3 witness: the amended statement evaluated at the empty registry. -/
theorem C3_witness :
    lookupKey "x" emptyRegistry.sources = none
    ∧ (getSourceInfo emptyRegistry "x" = none
       ∧ trackAccess emptyRegistry "x" 7 = emptyRegistry
       ∧ hasKey "x" (updateFeatureSync emptyRegistry "x" "conversational_ai" [] 7).feature_mappings
           = true) :=
  ⟨by decide, C3_amended emptyRegistry "x" "conversational_ai" [] 7 (by decide)⟩

/-- C9 (confirmed): registering the same id with the same `source_info` twice
in succession yields a registry state identical to registering it once, apart
from the timestamp fields (`registered_at`, `last_accessed`, `last_updated`);
in particular `access_count` is reset to 0 either way and the
`feature_mappings` entry is created by the first call and left alone by the
second. -/
theorem C9_register_idempotent (s : Registry) (id : String) (info : SourceInfo)
    (t₁ t₂ t₃ : Int) :
    scrubRegistry (registerSource (registerSource s id info t₁) id info t₂)
      = scrubRegistry (registerSource s id info t₃) := by
  apply Registry.ext_fields
  · dsimp only [registerSource, scrubRegistry]
    rw [setKey_setKey_same, map_snd_setKey, map_snd_setKey]
    rfl
  · rfl
  · dsimp only [registerSource, scrubRegistry]
    by_cases h : hasKey id s.feature_mappings <;>
      simp [h, hasKey_setKey_self]
  · rfl

/-- C10 (confirmed): re-registering an id already present overwrites the
stored source record wholesale — the new record is the caller's
`source_info` with `access_count` reset to 0, `last_accessed` and
`registered_at` stamped to now — while the id's existing `feature_mappings`
entry and the `schemas` map are left unchanged. -/
theorem C10_reregister_frame (s : Registry) (id : String) (info : SourceInfo) (now : Int)
    (old : StoredSource) (m : List (String × FeatureState))
    (hs : lookupKey id s.sources = some old)
    (hm : lookupKey id s.feature_mappings = some m) :
    lookupKey id (registerSource s id info now).sources
        = some { info := info, registered_at := now,
                 last_accessed := some (some now), access_count := 0 }
    ∧ (registerSource s id info now).sources
        = setKey id { info := info, registered_at := now,
                      last_accessed := some (some now), access_count := 0 } s.sources
    ∧ (registerSource s id info now).feature_mappings = s.feature_mappings
    ∧ (registerSource s id info now).schemas = s.schemas := by
  have hk : hasKey id s.feature_mappings = true := by simp [hasKey, hm]
  refine ⟨?_, rfl, ?_, rfl⟩
  · simp [registerSource, lookupKey_setKey]
  · simp [registerSource, hk]

/-- C10 witness: re-registering `"a"` in `regA`. -/
theorem C10_witness :
    lookupKey "a" regA.sources
        = some ({ info := [("name", "x")], registered_at := 1,
                  last_accessed := some (some 1), access_count := 3 } : StoredSource)
    ∧ lookupKey "a" regA.feature_mappings = some initialFeatureMappings
    ∧ (lookupKey "a" (registerSource regA "a" [("name", "y")] 9).sources
        = some ({ info := [("name", "y")], registered_at := 9,
                  last_accessed := some (some 9), access_count := 0 } : StoredSource)
      ∧ (registerSource regA "a" [("name", "y")] 9).sources
          = setKey "a" { info := [("name", "y")], registered_at := 9,
                         last_accessed := some (some 9), access_count := 0 } regA.sources
      ∧ (registerSource regA "a" [("name", "y")] 9).feature_mappings = regA.feature_mappings
      ∧ (registerSource regA "a" [("name", "y")] 9).schemas = regA.schemas) :=
  ⟨by decide, by decide,
   C10_reregister_frame regA "a" [("name", "y")] 9
     { info := [("name", "x")], registered_at := 1,
       last_accessed := some (some 1), access_count := 3 }
     initialFeatureMappings (by decide) (by decide)⟩

/-- C5 counterexample.  The claim states that in every reachable state every
registered source has a full four-feature `feature_sync` map.  But
`update_feature_sync` on the unknown id `"x"` creates a one-entry map, and the
subsequent `register_source("x")` sees an existing `feature_mappings` entry and
does not re-initialize it: `"x"` ends registered with a map lacking
`query_builder` (and two others). -/
theorem C5_counterexample :
    hasKey "x" c5Reached.sources = true
    ∧ lookupKey "x" c5Reached.feature_mappings
        = some [("conversational_ai", [("last_sync", JVal.time 0)])]
    ∧ allFeaturesPresent [("conversational_ai", [("last_sync", JVal.time 0)])] = false := by
  refine ⟨rfl, rfl, rfl⟩

/-- C5 (amended): fullness of all `feature_mappings` values is preserved by
`register_source`, `unregister_source` and `track_access` unconditionally,
and by `update_feature_sync` provided the id already has a `feature_mappings`
entry; only `update_feature_sync` on an id with no entry can introduce a
partial map (as the counterexample shows). -/
theorem C5_amended (s : Registry) (h : FullMaps s) :
    (∀ id info now, FullMaps (registerSource s id info now))
    ∧ (∀ id now, FullMaps (unregisterSource s id now))
    ∧ (∀ id now, FullMaps (trackAccess s id now))
    ∧ (∀ id f sync_info now, hasKey id s.feature_mappings = true →
        FullMaps (updateFeatureSync s id f sync_info now)) := by
  refine ⟨?_, ?_, ?_, ?_⟩
  · intro id info now p hp
    simp only [registerSource] at hp
    by_cases hk : hasKey id s.feature_mappings
    · rw [if_pos hk] at hp
      exact h p hp
    · rw [if_neg hk] at hp
      rcases mem_setKey _ _ _ p hp with h' | h'
      · simp only [h']
        decide
      · exact h p h'
  · intro id now p hp
    exact h p ((eraseKey_sublist id s.feature_mappings).subset hp)
  · intro id now p hp
    cases hl : lookupKey id s.sources with
    | some src =>
      simp only [trackAccess, hl] at hp
      exact h p hp
    | none =>
      simp only [trackAccess, hl] at hp
      exact h p hp
  · intro id f sync_info now hk p hp
    obtain ⟨m, hm⟩ : ∃ m, lookupKey id s.feature_mappings = some m := by
      cases hx : lookupKey id s.feature_mappings with
      | some m => exact ⟨m, rfl⟩
      | none => simp [hasKey, hx] at hk
    simp only [updateFeatureSync, hm] at hp
    rcases mem_setKey _ _ _ p hp with h' | h'
    · have hfull : allFeaturesPresent m = true := h _ (lookupKey_mem hm)
      rw [h']
      simp only [allFeaturesPresent, Bool.and_eq_true] at hfull ⊢
      obtain ⟨⟨⟨h1, h2⟩, h3⟩, h4⟩ := hfull
      refine ⟨⟨⟨?_, ?_⟩, ?_⟩, ?_⟩ <;>
        simp [hasKey_setKey, *]
    · exact h p h'

theorem foldl_locked_none (R : List String) (now : Int) :
    R.foldl (fun acc source_id => acc.bind
      (fun st => unregisterSourceLocked true st source_id now)) none = none := by
  induction R with
  | nil => rfl
  | cons r R ih =>
    rw [List.foldl_cons, Option.none_bind, ih]

/-- C4 counterexample.  The claim states that `cleanup_inactive(days)` removes
(and counts) every source whose `last_accessed` is older than the threshold
*or unparsable or missing*.  Two refutations: on a registry whose only source
has no `last_accessed` at all, the code's `if last_accessed_str:` guard skips
it — nothing is removed and 0 is returned; and on a registry that does hold
removable sources (one stale, one unparsable), the first awaited
`unregister_source` re-acquires the lock the method already holds, so the
call deadlocks — it neither removes anything nor returns a count. -/
theorem C4_counterexample :
    cleanupInactiveSources regMissingAccess 1000 30 = some (regMissingAccess, 0)
    ∧ cleanupInactiveSources regCleanup 100 30 = none := by
  refine ⟨rfl, rfl⟩

/-- C4 (amended): `cleanup_inactive_sources` completes only when no source
qualifies for removal — a source qualifies when its `last_accessed` is
present and is unparsable or older than the threshold; a missing (or empty)
`last_accessed` never qualifies.  In that case it removes nothing and
returns 0.  As soon as at least one source qualifies, the call deadlocks on
the non-reentrant lock: it never removes anything and never returns. -/
theorem C4_amended (s : Registry) (now days_threshold : Int) :
    cleanupInactiveSources s now days_threshold
      = if s.sources.countP (fun p => shouldRemove now days_threshold p.2) = 0
        then some (s, 0) else none := by
  unfold cleanupInactiveSources
  rw [List.countP_eq_length_filter]
  cases hf : s.sources.filter (fun p => shouldRemove now days_threshold p.2) with
  | nil => simp [hf]
  | cons q rest =>
    simp only [List.map_cons, List.foldl_cons, Option.some_bind]
    have hlock : unregisterSourceLocked true s q.1 now = none := rfl
    rw [hlock, foldl_locked_none, Option.map_none']
    simp

/-- C5 witness: the amended preservation applied to the registry `regA`. -/
theorem C5_witness :
    FullMaps regA
    ∧ FullMaps (registerSource regA "b" [] 5)
    ∧ FullMaps (updateFeatureSync regA "a" "query_builder" [("enabled", JVal.bool false)] 5) :=
  ⟨by decide, (C5_amended regA (by decide)).1 "b" [] 5,
   (C5_amended regA (by decide)).2.2.2 "a" "query_builder" [("enabled", JVal.bool false)] 5
     (by decide)⟩

/-! ### Semantic-model claims -/

theorem strAppend_inj (p a b : String) : (p ++ a = p ++ b) ↔ a = b := by
  constructor
  · intro h
    have hd : p.data ++ a.data = p.data ++ b.data := congrArg String.data h
    exact String.ext (List.append_cancel_left hd)
  · intro h
    rw [h]

theorem ne_of_data_head {s t : String} (c d : Char) (cs ds : List Char)
    (hs : s.data = c :: cs) (ht : t.data = d :: ds) (hcd : c ≠ d) : s ≠ t := by
  intro hh
  subst hh
  rw [hs] at ht
  injection ht with h1 _
  exact hcd h1

theorem countP_flatMap_indicator (f : α → List β) (p : β → Bool) (q : α → Bool)
    (h : ∀ x, (f x).countP p = if q x then 1 else 0) (l : List α) :
    (l.flatMap f).countP p = l.countP q := by
  induction l with
  | nil => simp
  | cons x xs ih =>
    rw [List.flatMap_cons, List.countP_append, ih, List.countP_cons, h x]
    by_cases hq : q x <;> simp [hq, Nat.add_comm]

/-- Counting numeric columns whose normalized name is `n`: exactly one when
the normalized names of the numeric columns are distinct and `n` is among
them. -/
theorem countP_numeric_norm_eq_one (cols : List Column) (n : String)
    (hnodup : ((cols.filter isNumericFiles).map (fun x => normNameFiles x.name)).Nodup)
    (hmem : n ∈ (cols.filter isNumericFiles).map (fun x => normNameFiles x.name)) :
    cols.countP (fun x => isNumericFiles x && decide (normNameFiles x.name = n)) = 1 := by
  induction cols with
  | nil => simp at hmem
  | cons x xs ih =>
    by_cases hx : isNumericFiles x
    · rw [List.filter_cons_of_pos hx, List.map_cons] at hnodup hmem
      have hnd := List.nodup_cons.1 hnodup
      rw [List.countP_cons]
      rcases List.mem_cons.1 hmem with he | he
      · have hz : xs.countP (fun y => isNumericFiles y && decide (normNameFiles y.name = n)) = 0 := by
          apply List.countP_eq_zero.2
          intro a ha hcontra
          rw [Bool.and_eq_true, decide_eq_true_iff] at hcontra
          apply hnd.1
          have hn' : n ∈ (xs.filter isNumericFiles).map (fun y => normNameFiles y.name) :=
            hcontra.2 ▸
              List.mem_map_of_mem _ (List.mem_filter.2 ⟨ha, hcontra.1⟩)
          rwa [he] at hn'
        rw [hz]
        simp [hx, he]
      · have hne : ¬ (normNameFiles x.name = n) := by
          intro hcontra
          exact hnd.1 (hcontra ▸ he)
        rw [ih hnd.2 he]
        simp [hx, hne]
    · rw [List.filter_cons_of_neg hx] at hnodup hmem
      rw [List.countP_cons, ih hnodup hmem]
      simp [hx]

/-- The metrics which `_create_automatic_semantic_model` emits for one column,
counted against the target name `"sum_" ++ n`. -/
theorem countP_bucket_sum (x : Column) (n : String) :
    ((if isNumericFiles x then
        [sumMetricFiles x.name, avgMetricFiles x.name, countMetricFiles x.name]
      else []).countP (fun m => m.name = "sum_" ++ n))
      = if isNumericFiles x && decide (normNameFiles x.name = n) then 1 else 0 := by
  have h1 : ((sumMetricFiles x.name).name = "sum_" ++ n) ↔ (normNameFiles x.name = n) :=
    strAppend_inj "sum_" _ _
  have h2 : ¬ ((avgMetricFiles x.name).name = "sum_" ++ n) :=
    ne_of_data_head 'a' 's' _ _ rfl rfl (by decide)
  have h3 : ¬ ((countMetricFiles x.name).name = "sum_" ++ n) :=
    ne_of_data_head 'c' 's' _ _ rfl rfl (by decide)
  by_cases hx : isNumericFiles x
  · by_cases hn : normNameFiles x.name = n <;>
      simp [hx, hn, List.countP_cons, h1, h2, h3]
  · simp [hx]

/-- As `countP_bucket_sum`, for `"avg_" ++ n`. -/
theorem countP_bucket_avg (x : Column) (n : String) :
    ((if isNumericFiles x then
        [sumMetricFiles x.name, avgMetricFiles x.name, countMetricFiles x.name]
      else []).countP (fun m => m.name = "avg_" ++ n))
      = if isNumericFiles x && decide (normNameFiles x.name = n) then 1 else 0 := by
  have h1 : ((avgMetricFiles x.name).name = "avg_" ++ n) ↔ (normNameFiles x.name = n) :=
    strAppend_inj "avg_" _ _
  have h2 : ¬ ((sumMetricFiles x.name).name = "avg_" ++ n) :=
    ne_of_data_head 's' 'a' _ _ rfl rfl (by decide)
  have h3 : ¬ ((countMetricFiles x.name).name = "avg_" ++ n) :=
    ne_of_data_head 'c' 'a' _ _ rfl rfl (by decide)
  by_cases hx : isNumericFiles x
  · by_cases hn : normNameFiles x.name = n <;>
      simp [hx, hn, List.countP_cons, h1, h2, h3]
  · simp [hx]

/-- As `countP_bucket_sum`, for `"count_" ++ n`. -/
theorem countP_bucket_count (x : Column) (n : String) :
    ((if isNumericFiles x then
        [sumMetricFiles x.name, avgMetricFiles x.name, countMetricFiles x.name]
      else []).countP (fun m => m.name = "count_" ++ n))
      = if isNumericFiles x && decide (normNameFiles x.name = n) then 1 else 0 := by
  have h1 : ((countMetricFiles x.name).name = "count_" ++ n) ↔ (normNameFiles x.name = n) :=
    strAppend_inj "count_" _ _
  have h2 : ¬ ((sumMetricFiles x.name).name = "count_" ++ n) :=
    ne_of_data_head 's' 'c' _ _ rfl rfl (by decide)
  have h3 : ¬ ((avgMetricFiles x.name).name = "count_" ++ n) :=
    ne_of_data_head 'a' 'c' _ _ rfl rfl (by decide)
  by_cases hx : isNumericFiles x
  · by_cases hn : normNameFiles x.name = n <;>
      simp [hx, hn, List.countP_cons, h1, h2, h3]
  · simp [hx]

/-- No per-column metric is named `row_count`. -/
theorem countP_bucket_rowcount (x : Column) :
    ((if isNumericFiles x then
        [sumMetricFiles x.name, avgMetricFiles x.name, countMetricFiles x.name]
      else []).countP (fun m => m.name = "row_count"))
      = if (fun _ : Column => false) x then 1 else 0 := by
  have h1 : ¬ ((sumMetricFiles x.name).name = "row_count") :=
    ne_of_data_head 's' 'r' _ _ rfl rfl (by decide)
  have h2 : ¬ ((avgMetricFiles x.name).name = "row_count") :=
    ne_of_data_head 'a' 'r' _ _ rfl rfl (by decide)
  have h3 : ¬ ((countMetricFiles x.name).name = "row_count") :=
    ne_of_data_head 'c' 'r' _ _ rfl rfl (by decide)
  by_cases hx : isNumericFiles x <;> simp [hx, List.countP_cons, h1, h2, h3]

/-- C1 counterexample.  The claim asserts one sum, one avg, one count metric
per numeric column plus exactly one `row_count` metric, for the generated
semantic model.  `FileProcessorService.create_semantic_model` generates, for
the single integer column `age`, only a `sum_age` metric: no `avg_age` metric
and no `row_count` metric.  And `_create_automatic_semantic_model` does not
disambiguate normalized-name collisions: the columns `"a b"` and `"a-b"` both
normalize to `a_b`, yielding two metrics named `sum_a_b`. -/
theorem C1_counterexample :
    fpMetrics [{ name := "age", ctype := "integer" }] = [sumMetricFP "age"]
    ∧ (fpMetrics [{ name := "age", ctype := "integer" }]).countP
        (fun m => m.name = "avg_age") = 0
    ∧ (fpMetrics [{ name := "age", ctype := "integer" }]).countP
        (fun m => m.name = "row_count") = 0
    ∧ (filesMetrics [{ name := "a b", ctype := "integer" },
                     { name := "a-b", ctype := "integer" }]).countP
        (fun m => m.name = "sum_a_b") = 2 := by
  refine ⟨rfl, by decide, by decide, by decide⟩

/-- C1 (amended): for the automatic generator of `services/files.py`, if the
normalized names of the numeric columns are pairwise distinct then every
numeric column yields exactly one `sum_`, one `avg_` and one `count_` metric
bearing its normalized name, and the model contains exactly one `row_count`
metric (the latter unconditionally); the generator of
`services/file_processor.py` emits neither avg/count metrics nor a
`row_count` metric (see the counterexample). -/
theorem C1_amended (cols : List Column) (c : Column)
    (hc : c ∈ cols) (hnum : isNumericFiles c = true)
    (hnodup : ((cols.filter isNumericFiles).map (fun x => normNameFiles x.name)).Nodup) :
    (filesMetrics cols).countP (fun m => m.name = "sum_" ++ normNameFiles c.name) = 1
    ∧ (filesMetrics cols).countP (fun m => m.name = "avg_" ++ normNameFiles c.name) = 1
    ∧ (filesMetrics cols).countP (fun m => m.name = "count_" ++ normNameFiles c.name) = 1
    ∧ (filesMetrics cols).countP (fun m => m.name = "row_count") = 1 := by
  have hmem : normNameFiles c.name
      ∈ (cols.filter isNumericFiles).map (fun x => normNameFiles x.name) :=
    List.mem_map_of_mem _ (List.mem_filter.2 ⟨hc, hnum⟩)
  have hone := countP_numeric_norm_eq_one cols (normNameFiles c.name) hnodup hmem
  have hsumrc : ∀ n, ¬ (rowCountMetric.name = "sum_" ++ n) := fun n =>
    ne_of_data_head 'r' 's' _ _ rfl rfl (by decide)
  have havgrc : ∀ n, ¬ (rowCountMetric.name = "avg_" ++ n) := fun n =>
    ne_of_data_head 'r' 'a' _ _ rfl rfl (by decide)
  have hcntrc : ∀ n, ¬ (rowCountMetric.name = "count_" ++ n) := fun n =>
    ne_of_data_head 'r' 'c' _ _ rfl rfl (by decide)
  refine ⟨?_, ?_, ?_, ?_⟩
  · unfold filesMetrics
    rw [List.countP_append,
      countP_flatMap_indicator _ _ _ (fun x => countP_bucket_sum x (normNameFiles c.name)),
      hone]
    simp [hsumrc]
  · unfold filesMetrics
    rw [List.countP_append,
      countP_flatMap_indicator _ _ _ (fun x => countP_bucket_avg x (normNameFiles c.name)),
      hone]
    simp [havgrc]
  · unfold filesMetrics
    rw [List.countP_append,
      countP_flatMap_indicator _ _ _ (fun x => countP_bucket_count x (normNameFiles c.name)),
      hone]
    simp [hcntrc]
  · unfold filesMetrics
    rw [List.countP_append,
      countP_flatMap_indicator _ _ _ countP_bucket_rowcount]
    have hfz : cols.countP (fun _ : Column => false) = 0 :=
      List.countP_eq_zero.2 (fun a _ ha => by cases ha)
    rw [hfz]
    decide

/-- C1 witness: the amended statement on the two-column schema
`[age : integer, name : string]`. -/
theorem C1_witness :
    ({ name := "age", ctype := "integer" } : Column)
        ∈ [({ name := "age", ctype := "integer" } : Column),
           { name := "name", ctype := "string" }]
    ∧ isNumericFiles { name := "age", ctype := "integer" } = true
    ∧ ((([({ name := "age", ctype := "integer" } : Column),
          { name := "name", ctype := "string" }]).filter isNumericFiles).map
            (fun x => normNameFiles x.name)).Nodup
    ∧ ((filesMetrics [({ name := "age", ctype := "integer" } : Column),
          { name := "name", ctype := "string" }]).countP
            (fun m => m.name = "sum_" ++ normNameFiles "age") = 1
       ∧ (filesMetrics [({ name := "age", ctype := "integer" } : Column),
            { name := "name", ctype := "string" }]).countP
              (fun m => m.name = "avg_" ++ normNameFiles "age") = 1
       ∧ (filesMetrics [({ name := "age", ctype := "integer" } : Column),
            { name := "name", ctype := "string" }]).countP
              (fun m => m.name = "count_" ++ normNameFiles "age") = 1
       ∧ (filesMetrics [({ name := "age", ctype := "integer" } : Column),
            { name := "name", ctype := "string" }]).countP
              (fun m => m.name = "row_count") = 1) :=
  ⟨by decide, by decide, by decide,
   C1_amended _ { name := "age", ctype := "integer" }
     (by decide) (by decide) (by decide)⟩

/-- C2 counterexample.  The claim asserts one dimension per input column
regardless of type (including datetime), with collisions after normalization
disambiguated by an integer suffix.  `FileProcessorService.create_semantic_model`
emits no dimension for a datetime column, and
`_create_automatic_semantic_model` leaves the colliding normalized names
`a_b`/`a_b` (from `"A B"` and `"A-B"`) undisambiguated. -/
theorem C2_counterexample :
    fpDimensions [{ name := "ts", ctype := "datetime" }] = []
    ∧ (filesDimensions [{ name := "A B", ctype := "string" },
                        { name := "A-B", ctype := "integer" }]).map
        (fun d => d.name) = ["a_b", "a_b"] := by
  refine ⟨rfl, by decide⟩

/-- C2 (amended): the automatic generator of `services/files.py` emits
exactly one dimension per input column regardless of its type, in column
order, named `col_name.lower().replace(" ", "_").replace("-", "_")` (no
strip, hyphens also replaced) and titled with the original column name;
normalization collisions are not disambiguated (duplicate dimension names are
kept as-is), and the generator of `services/file_processor.py` skips
datetime columns entirely (see the counterexample). -/
theorem C2_amended (cols : List Column) :
    (filesDimensions cols).length = cols.length
    ∧ (filesDimensions cols).map (fun d => d.name)
        = cols.map (fun c => normNameFiles c.name)
    ∧ (filesDimensions cols).map (fun d => d.title) = cols.map (fun c => c.name) := by
  refine ⟨?_, ?_, ?_⟩
  · simp [filesDimensions]
  · rw [filesDimensions, List.map_map]
    rfl
  · rw [filesDimensions, List.map_map]
    rfl

/-! ### Query-engine claim -/

theorem replChars_of_not_hasSub (pat rep : List Char) :
    ∀ (fuel : Nat) (s : List Char), hasSubL pat s = false → replChars pat rep fuel s = s := by
  intro fuel
  induction fuel with
  | zero =>
    intro s h
    cases s <;> rfl
  | succ fuel ih =>
    intro s h
    cases s with
    | nil => rfl
    | cons c rest =>
      simp only [hasSubL, Bool.or_eq_false_iff] at h
      simp only [replChars, h.1, Bool.false_eq_true, if_false]
      rw [ih rest h.2]

theorem pyReplace_of_not_hasSub {s pat : String} (rep : String)
    (h : hasSubL pat.data s.data = false) : pyReplace s pat rep = s := by
  unfold pyReplace
  rw [replChars_of_not_hasSub _ _ _ _ h]

/-- C6 counterexample.  The claim states that each query-execution call runs
the caller's SQL string verbatim.  `_modify_sql_for_execution` rewrites the
string first: `SELECT * FROM orders` is executed as `SELECT * FROM data`. -/
theorem C6_counterexample :
    modifySqlForExecution "SELECT * FROM orders" = "SELECT * FROM data"
    ∧ modifySqlForExecution "SELECT * FROM orders" ≠ "SELECT * FROM orders" := by
  refine ⟨by decide, by decide⟩

/-- C6 (amended): each call loads the source's rows into a table created
fresh for that single call (the embedded engine is applied to exactly this
call's rows; nothing outlives the call) and executes the SQL *after* the
fixed table-name substitutions of `_modify_sql_for_execution`; the SQL is
executed verbatim exactly when none of the six replaced table names occurs
in it. -/
theorem C6_amended {ρ : Type} (runSql : String → List Row → ρ) (sql : String)
    (ds : QEDataSource) (htab : ds.dtype = "tabular") (hrows : ds.rows.isEmpty = false)
    (hno : noTableNameOccurs sql = true) :
    executeSqlOnData runSql sql ds
        = Except.ok (runSql (modifySqlForExecution sql) ds.rows)
    ∧ modifySqlForExecution sql = sql := by
  constructor
  · simp [executeSqlOnData, htab, hrows]
  · simp only [noTableNameOccurs, tableReplacements, List.all_cons, List.all_nil,
      Bool.and_eq_true, Bool.not_eq_true', and_true] at hno
    obtain ⟨h1, h2, h3, h4, h5, h6⟩ := hno
    unfold modifySqlForExecution tableReplacements
    simp only [List.foldl_cons, List.foldl_nil]
    rw [pyReplace_of_not_hasSub _ h1, pyReplace_of_not_hasSub _ h2,
      pyReplace_of_not_hasSub _ h3, pyReplace_of_not_hasSub _ h4,
      pyReplace_of_not_hasSub _ h5, pyReplace_of_not_hasSub _ h6]

/-- C6 witness: a query mentioning none of the six table names is passed to
the engine unchanged, over the rows of this call. -/
theorem C6_witness :
    (⟨"tabular", [[("v", "1")]]⟩ : QEDataSource).dtype = "tabular"
    ∧ (⟨"tabular", [[("v", "1")]]⟩ : QEDataSource).rows.isEmpty = false
    ∧ noTableNameOccurs "SELECT v FROM data" = true
    ∧ (executeSqlOnData (fun q rows => (q, rows)) "SELECT v FROM data"
          ⟨"tabular", [[("v", "1")]]⟩
        = Except.ok ((fun q rows => (q, rows))
            (modifySqlForExecution "SELECT v FROM data") [[("v", "1")]])
      ∧ modifySqlForExecution "SELECT v FROM data" = "SELECT v FROM data") :=
  ⟨by decide, by decide, by decide,
   C6_amended (fun q rows => (q, rows)) "SELECT v FROM data" ⟨"tabular", [[("v", "1")]]⟩
     (by decide) (by decide) (by decide)⟩

/-! ### Ingestion-pipeline claim -/

/-- C7 (confirmed): whenever `process_and_integrate_file` leaves the record
in the `failed` state, an error has been recorded on the record and no
notification was emitted to any feature.  (On this code the premise holds for
every run: `process_file` returns `None`, so step 2 raises before any
notification step; a semantic-model-generation failure alone can never reach
the `failed` state, because `_create_automatic_semantic_model` swallows its
exceptions.) -/
theorem C7_failed_no_notification (supported : Bool) (outcome : ParseOutcome)
    (modelCreated : Bool) (r : FileRec)
    (hfail : (processAndIntegrateFile supported outcome modelCreated r).1.processing_status
        = "failed") :
    (processAndIntegrateFile supported outcome modelCreated r).1.meta_error.isSome = true
    ∧ (processAndIntegrateFile supported outcome modelCreated r).2 = [] := by
  have hret : (processFile supported outcome r).2 = none := by
    unfold processFile
    by_cases hsup : supported
    · cases outcome <;> simp [hsup]
    · simp [hsup]
  simp [processAndIntegrateFile, hret]

/-- C7 witness: an upload whose parser throws ends `failed` with the error
recorded and the notification list empty. -/
theorem C7_witness :
    (processAndIntegrateFile true (ParseOutcome.throws "boom") false
        ⟨"pending", none, none⟩).1.processing_status = "failed"
    ∧ ((processAndIntegrateFile true (ParseOutcome.throws "boom") false
          ⟨"pending", none, none⟩).1.meta_error.isSome = true
      ∧ (processAndIntegrateFile true (ParseOutcome.throws "boom") false
          ⟨"pending", none, none⟩).2 = []) :=
  ⟨by decide,
   C7_failed_no_notification true (ParseOutcome.throws "boom") false
     ⟨"pending", none, none⟩ (by decide)⟩

/-! ### Stuck-work recovery claim -/

theorem countP_eq_one_of_nodup_mem [DecidableEq α] {l : List α} (hnd : l.Nodup)
    {n : α} (hn : n ∈ l) : l.countP (fun y => y = n) = 1 := by
  induction l with
  | nil => cases hn
  | cons x xs ih =>
    have hx := List.nodup_cons.1 hnd
    rw [List.countP_cons]
    rcases List.mem_cons.1 hn with he | he
    · subst he
      have hz : xs.countP (fun y => y = n) = 0 := by
        apply List.countP_eq_zero.2
        intro a ha hay
        rw [decide_eq_true_iff] at hay
        exact hx.1 (hay ▸ ha)
      simp [hz]
    · have hxn : ¬ (x = n) := fun hcontra => hx.1 (hcontra ▸ he)
      rw [ih hx.2 he]
      simp [hxn]

/-- C8 (confirmed against the spec-modelled maintenance pass): every source
sitting in `processing` beyond the stuck threshold is force-transitioned back
to `pending` by the pass, and its id is re-enqueued for processing exactly
once. -/
theorem C8_reset_stuck (now threshold : Int) (files : List ProcFile) (f : ProcFile)
    (hnd : (files.map ProcFile.id).Nodup) (hf : f ∈ files)
    (hst : isStuck now threshold f = true) :
    (resetStuckSources now threshold files).2.countP (fun i => i = f.id) = 1
    ∧ ∀ g ∈ (resetStuckSources now threshold files).1,
        g.id = f.id → g.status = "pending" := by
  constructor
  · have hsub : ((files.filter (isStuck now threshold)).map ProcFile.id).Sublist
        (files.map ProcFile.id) :=
      (List.filter_sublist files).map ProcFile.id
    have hnd' : ((files.filter (isStuck now threshold)).map ProcFile.id).Nodup :=
      hnd.sublist hsub
    have hmem : f.id ∈ (files.filter (isStuck now threshold)).map ProcFile.id :=
      List.mem_map_of_mem _ (List.mem_filter.2 ⟨hf, hst⟩)
    exact countP_eq_one_of_nodup_mem hnd' hmem
  · intro g hg hid
    obtain ⟨h0, h0mem, h0eq⟩ := List.mem_map.1 hg
    by_cases hs0 : isStuck now threshold h0
    · rw [← h0eq]
      simp [hs0]
    · rw [← h0eq] at hid
      simp only [hs0, Bool.false_eq_true, if_false] at hid
      have h0f : h0 = f := List.inj_on_of_nodup_map hnd h0mem hf hid
      rw [h0f] at hs0
      exact absurd hst hs0

/-- C8 witness: a file stuck in `processing` since time 0, at time 100 with
threshold 10, is reset to `pending` and re-enqueued once. -/
theorem C8_witness :
    (([⟨"p1", "processing", 0⟩, ⟨"p2", "completed", 0⟩] : List ProcFile).map
        ProcFile.id).Nodup
    ∧ (⟨"p1", "processing", 0⟩ : ProcFile)
        ∈ [(⟨"p1", "processing", 0⟩ : ProcFile), ⟨"p2", "completed", 0⟩]
    ∧ isStuck 100 10 ⟨"p1", "processing", 0⟩ = true
    ∧ ((resetStuckSources 100 10
          [(⟨"p1", "processing", 0⟩ : ProcFile), ⟨"p2", "completed", 0⟩]).2.countP
            (fun i => i = "p1") = 1
      ∧ ∀ g ∈ (resetStuckSources 100 10
            [(⟨"p1", "processing", 0⟩ : ProcFile), ⟨"p2", "completed", 0⟩]).1,
          g.id = "p1" → g.status = "pending") :=
  ⟨by decide, by decide, by decide,
   C8_reset_stuck 100 10 [⟨"p1", "processing", 0⟩, ⟨"p2", "completed", 0⟩]
     ⟨"p1", "processing", 0⟩ (by decide) (by decide) (by decide)⟩

end Reporter
